import Mathlib

/-!
# JWT request authentication of `middleware/auth.go`

A shallow embedding of the authentication middleware of the dashboard backend
(`middleware/auth.go`, with the parts of `handlers/holdings.go` and
`cmd/server/main.go` that use it) and the properties of its
header extraction, token validation, subject extraction and identity binding.

Go strings are embedded as Lean strings, Go `interface{}` values as `GoAny`,
Go maps as association lists read with `List.lookup`, and a Go result pair
`(string, error)` as `String × Option String`.
-/

namespace Middleware

/-! ## Go values and string helpers -/

/-- A dynamically typed Go value (`interface{}`), as stored in `gin.Context.Keys`
and in decoded JSON objects. JSON numbers are taken to be whole (the time claims
are seconds since the epoch); composite JSON values keep their text only. -/
inductive GoAny where
  | nil
  | bool (b : Bool)
  | num (n : Int)
  | str (s : String)
  | composite (json : String)
  deriving DecidableEq, Repr

/-- The type assertion `v.(string)`: the string and `true`, or the zero value and `false`. -/
def GoAny.assertString : GoAny → String × Bool
  | .str s => (s, true)
  | _ => ("", false)

/-- The type assertion `m[key].(string)` on a map: a missing key reads as `nil`. -/
def mapAssertString (m : List (String × GoAny)) (key : String) : String × Bool :=
  match m.lookup key with
  | some v => v.assertString
  | none => ("", false)

/-- Go `strings.HasPrefix`. -/
def stringsHasPrefix (s pre : String) : Bool :=
  pre.toList.isPrefixOf s.toList

/-- Go `strings.TrimPrefix`: `s` without the leading `pre`, or `s` itself. -/
def stringsTrimPrefix (s pre : String) : String :=
  if stringsHasPrefix s pre then String.mk (s.toList.drop pre.toList.length) else s

/-! ## The gin request context -/

/-- What the handler did that is observable from outside: calls of the token
validator and of the rest of the handler chain. -/
inductive Event where
  | jwtParse (tokenStr : String)
  | next
  deriving DecidableEq, Repr

/-- A written response body: nothing yet, a `gin.H` object of strings, or the
serialised result of the data query. -/
inductive Body where
  | empty
  | H (obj : List (String × String))
  | data (json : String)
  deriving DecidableEq, Repr

/-- The part of `gin.Context` the middleware touches: the request headers, the
per-request key/value bag, the abort flag, the written response, and a log of
the calls made on behalf of this request. -/
structure Context where
  header : List (String × List String)
  keys : List (String × GoAny)
  aborted : Bool
  status : Option Nat
  body : Body
  log : List Event
  deriving DecidableEq, Repr

/-- The constant `userIDKey`. -/
def userIDKey : String := "userID"

/-- The constant `http.StatusUnauthorized`. -/
def StatusUnauthorized : Nat := 401

/-- Method `c.GetHeader(key)`: the first value stored for the key, or `""`. -/
def Context.GetHeader (c : Context) (key : String) : String :=
  match c.header.lookup key with
  | some (v :: _) => v
  | _ => ""

/-- Method `c.Get(key)`: the value and whether it exists. -/
def Context.Get (c : Context) (key : String) : GoAny × Bool :=
  match c.keys.lookup key with
  | some v => (v, true)
  | none => (.nil, false)

/-- Method `c.Set(key, value)`. -/
def Context.Set (c : Context) (key : String) (value : GoAny) : Context :=
  { c with keys := (key, value) :: c.keys.filter (fun kv => kv.1 != key) }

/-- Method `c.AbortWithStatusJSON(code, gin.H{...})`: stops the handler chain and
writes the status and the JSON object. -/
def Context.AbortWithStatusJSON (c : Context) (code : Nat) (obj : List (String × String)) :
    Context :=
  { c with aborted := true, status := some code, body := .H obj }

/-- Method `c.JSON(code, obj)`: writes the status and the body. -/
def Context.JSON (c : Context) (code : Nat) (obj : Body) : Context :=
  { c with status := some code, body := obj }

/-- Appends a call to the request log. -/
def Context.record (c : Context) (e : Event) : Context :=
  { c with log := c.log ++ [e] }

/-- A request that has just arrived with the given headers: nothing bound,
nothing written, nothing called. -/
def Context.fresh (header : List (String × List String)) : Context :=
  { header := header, keys := [], aborted := false, status := none, body := .empty, log := [] }

/-! ## `GetUserID`, `extractBearerToken`, `extractUserIDFromClaims` -/

/-- Function `GetUserID` of `middleware/auth.go`. -/
def GetUserID (c : Context) : String × Bool :=
  match c.Get userIDKey with
  | (_, false) => ("", false)
  | (val, true) => val.assertString

/-- Function `extractBearerToken` of `middleware/auth.go`. -/
def extractBearerToken (c : Context) : String × Bool :=
  let authHeader := c.GetHeader "Authorization"
  if authHeader == "" || !stringsHasPrefix authHeader "Bearer " then
    ("", false)
  else
    (stringsTrimPrefix authHeader "Bearer ", true)

/-- A value of the interface `jwt.Claims`: the map form `jwt.MapClaims`, or some
other implementation (such as `jwt.RegisteredClaims`). -/
inductive Claims where
  | mapClaims (m : List (String × GoAny))
  | otherClaims
  deriving DecidableEq, Repr

/-- Function `extractUserIDFromClaims` of `middleware/auth.go`. -/
def extractUserIDFromClaims (claims : Claims) : String × Option String :=
  match claims with
  | .otherClaims => ("", some "invalid token claims")
  | .mapClaims mapClaims =>
    match mapAssertString mapClaims "sub" with
    | (sub, ok) =>
      if !ok || sub == "" then ("", some "missing sub in token")
      else (sub, none)

/-! ## The token validator `jwt.Parse` -/

/-- The signing methods registered by the JWT library. -/
inductive SigningMethod where
  | HS256 | HS384 | HS512
  | RS256 | RS384 | RS512
  | PS256 | PS384 | PS512
  | ES256 | ES384 | ES512
  | EdDSA
  | None
  deriving DecidableEq, Repr

/-- The type assertion `method.(*jwt.SigningMethodHMAC)` succeeds. -/
def SigningMethod.isHMAC : SigningMethod → Bool
  | .HS256 | .HS384 | .HS512 => true
  | _ => false

/-- Modelled from the spec: the function `jwt.GetSigningMethod` of the JWT
library (a dependency that is not part of the sources), which gives the method
registered under an `alg` name, if any: the symmetric HMAC family, the
asymmetric families and `"none"`. -/
def GetSigningMethod (alg : String) : Option SigningMethod :=
  if alg = "HS256" then some .HS256
  else if alg = "HS384" then some .HS384
  else if alg = "HS512" then some .HS512
  else if alg = "RS256" then some .RS256
  else if alg = "RS384" then some .RS384
  else if alg = "RS512" then some .RS512
  else if alg = "PS256" then some .PS256
  else if alg = "PS384" then some .PS384
  else if alg = "PS512" then some .PS512
  else if alg = "ES256" then some .ES256
  else if alg = "ES384" then some .ES384
  else if alg = "ES512" then some .ES512
  else if alg = "EdDSA" then some .EdDSA
  else if alg = "none" then some .None
  else none

/-- The struct `jwt.Token`. -/
structure Token where
  Raw : String
  Method : SigningMethod
  Header : List (String × GoAny)
  Claims : Claims
  Signature : String
  Valid : Bool
  deriving DecidableEq, Repr

/-- The struct `jwt.ValidationError`, by the kinds of failure it flags:
`ValidationErrorMalformed` (the spec's `InvalidFormat`),
`ValidationErrorUnverifiable`, `ValidationErrorSignatureInvalid` (the spec's
`InvalidSignature`) and the flags raised by the validation of the claims
(expiry and the other time claims). -/
structure ValidationError where
  malformed : Bool := false
  unverifiable : Bool := false
  signatureInvalid : Bool := false
  claimsInvalid : Bool := false
  deriving DecidableEq, Repr

/-- Method `valid` of `jwt.ValidationError`: no flag is raised. -/
def ValidationError.valid (e : ValidationError) : Bool :=
  !e.malformed && !e.unverifiable && !e.signatureInvalid && !e.claimsInvalid

/-- The primitives of the JWT library that the embedding does not unfold: the
decoding of a base64url JSON segment into a header or a claim set, the
verification of a signature over a signing string with a key, and the
validation of the time claims against the clock (`MapClaims.Valid`). -/
structure JwtLib where
  decodeHeader : String → Option (List (String × GoAny))
  decodeClaims : String → Option (List (String × GoAny))
  verify : SigningMethod → String → String → String → Bool
  claimsValid : List (String × GoAny) → Bool

/-- Go `strings.Split(s, ".")` on the characters of a string. -/
def splitDots : List Char → List (List Char)
  | [] => [[]]
  | c :: cs =>
    if c = '.' then [] :: splitDots cs
    else
      match splitDots cs with
      | [] => [[c]]
      | p :: ps => (c :: p) :: ps

/-- Modelled from the spec: the segment parser of the JWT library
(`Parser.ParseUnverified` of golang-jwt, a dependency that is not part of the
sources). It splits the credential into header, payload and signature segments,
decodes the first two and looks the declared algorithm up; a credential that
does not have three decodable segments is malformed. -/
def ParseUnverified (lib : JwtLib) (tokenString : String) :
    Except ValidationError (Token × String × String × String) :=
  match (splitDots tokenString.toList).map String.mk with
  | [p0, p1, p2] =>
    match lib.decodeHeader p0 with
    | none => .error { malformed := true }
    | some header =>
      match lib.decodeClaims p1 with
      | none => .error { malformed := true }
      | some claims =>
        match mapAssertString header "alg" with
        | (_, false) => .error { unverifiable := true }
        | (alg, true) =>
          match GetSigningMethod alg with
          | none => .error { unverifiable := true }
          | some method =>
            .ok ({ Raw := tokenString, Method := method, Header := header,
                   Claims := .mapClaims claims, Signature := "", Valid := false }, p0, p1, p2)
  | _ => .error { malformed := true }

/-- The validation of the claims of a parsed token (`token.Claims.Valid()`). -/
def claimsValid (lib : JwtLib) : Claims → Bool
  | .mapClaims m => lib.claimsValid m
  | .otherClaims => true

/-- Modelled from the spec: the token validator `jwt.Parse` of the JWT library
(`Parser.ParseWithClaims` of golang-jwt, a dependency that is not part of the
sources). It parses the segments, asks the key function for the key (an error
of the key function makes the token unverifiable), validates the claims,
recomputes and compares the signature over header and payload, and marks the
token valid when nothing failed. The token is absent from the result where the
segments could not be parsed. -/
def jwtParse (lib : JwtLib) (tokenString : String)
    (keyFunc : Token → Option String × Option String) :
    Option Token × Option ValidationError :=
  match ParseUnverified lib tokenString with
  | .error e => (none, some e)
  | .ok (token, p0, p1, p2) =>
    match keyFunc token with
    | (_, some _) => (some token, some { unverifiable := true })
    | (key, none) =>
      let vErr : ValidationError :=
        if claimsValid lib token.Claims then {} else { claimsInvalid := true }
      let token := { token with Signature := p2 }
      let verified :=
        match key with
        | some k => lib.verify token.Method (p0 ++ "." ++ p1) token.Signature k
        | none => false
      let vErr := if verified then vErr else { vErr with signatureInvalid := true }
      if vErr.valid then (some { token with Valid := true }, none)
      else (some token, some vErr)

/-! ## `AuthMiddleware` -/

/-- The text `fmt` prints for a value under `%v`. -/
def GoAny.format : GoAny → String
  | .nil => "<nil>"
  | .bool b => if b then "true" else "false"
  | .num n => toString n
  | .str s => s
  | .composite json => json

/-- The key function that `AuthMiddleware` passes to `jwt.Parse`: the secret for
an HMAC token, an error for any other signing method. -/
def keyFunc (jwtSecret : String) (token : Token) : Option String × Option String :=
  if !token.Method.isHMAC then
    (none, some ("unexpected signing method: " ++
      ((token.Header.lookup "alg").getD .nil).format))
  else
    (some jwtSecret, none)

/-- Go `!token.Valid` on the token returned by `jwt.Parse`. -/
def tokenNotValid : Option Token → Bool
  | some token => !token.Valid
  | none => true

/-- The handler returned by `AuthMiddleware` of `middleware/auth.go`, for the
secret it captured; `next` stands for the rest of the handler chain run by
`c.Next()`. -/
def authHandler (lib : JwtLib) (jwtSecret : String) (next : Context → Context)
    (c : Context) : Context :=
  match extractBearerToken c with
  | (_, false) =>
    c.AbortWithStatusJSON StatusUnauthorized
      [("error", "Missing or invalid Authorization header")]
  | (tokenStr, true) =>
    let c := c.record (.jwtParse tokenStr)
    match jwtParse lib tokenStr (keyFunc jwtSecret) with
    | (token, err) =>
      if err.isSome || tokenNotValid token then
        c.AbortWithStatusJSON StatusUnauthorized [("error", "Invalid token")]
      else
        match extractUserIDFromClaims ((token.map Token.Claims).getD .otherClaims) with
        | (_, some err) =>
          c.AbortWithStatusJSON StatusUnauthorized [("error", err)]
        | (sub, none) =>
          next ((c.Set userIDKey (.str sub)).record .next)

/-- Go `os.Getenv`: the value of the variable, or `""` when it is not set. -/
def Getenv (env : List (String × String)) (key : String) : String :=
  (env.lookup key).getD ""

/-- Function `AuthMiddleware` of `middleware/auth.go`: the panic at construction
is the error result, the returned closure is `authHandler` over the secret. -/
def AuthMiddleware (lib : JwtLib) (env : List (String × String)) :
    Except String ((Context → Context) → Context → Context) :=
  let jwtSecret := Getenv env "SUPABASE_JWT_SECRET"
  if jwtSecret == "" then
    .error "SUPABASE_JWT_SECRET is not set"
  else
    .ok (authHandler lib jwtSecret)

/-! ## The protected handler `GetHoldings` -/

/-- Function `GetHoldings` of `handlers/holdings.go`; `GetUserHoldings` stands for
the data query of `services/holdings.go`, returning the serialised records or an
error. -/
def GetHoldings (GetUserHoldings : String → String × Option String) (c : Context) : Context :=
  match GetUserID c with
  | (_, false) => c.JSON StatusUnauthorized (.H [("error", "Unauthorized")])
  | (userID, true) =>
    match GetUserHoldings userID with
    | (_, some _) => c.JSON 500 (.H [("error", "Failed to fetch holdings")])
    | (holdings, none) => c.JSON 200 (.data holdings)

/-! ## A concrete instance of the library primitives -/

/-- The validation of the time claims by `MapClaims.Valid` at the clock reading
`now` (in seconds): an `exp` claim must lie in the future, `iat` and `nbf` claims
must not; a zero value counts as unset and a non-numeric value fails. -/
def mapClaimsValidAt (now : Int) (m : List (String × GoAny)) : Bool :=
  (match m.lookup "exp" with
    | none => true
    | some (.num e) => e == 0 || decide (now < e)
    | some _ => false) &&
  (match m.lookup "iat" with
    | none => true
    | some (.num t) => t == 0 || decide (t ≤ now)
    | some _ => false) &&
  (match m.lookup "nbf" with
    | none => true
    | some (.num t) => t == 0 || decide (t ≤ now)
    | some _ => false)

/-- A small instance of the library primitives on which the handler can be
evaluated: segments are named rather than base64url-encoded, the signature of a
signing string under a key is the key followed by `"/"` and the signing string
with its dot written `"/"`, and the clock reads `now`. -/
def sampleLib (now : Int) : JwtLib where
  decodeHeader s :=
    if s = "hs256" then some [("alg", .str "HS256"), ("typ", .str "JWT")]
    else if s = "rs256" then some [("alg", .str "RS256"), ("typ", .str "JWT")]
    else if s = "none" then some [("alg", .str "none")]
    else none
  decodeClaims s :=
    if s = "user42" then some [("sub", .str "user-42")]
    else if s = "user42exp" then some [("sub", .str "user-42"), ("exp", .num 1000)]
    else if s = "nosub" then some [("role", .str "authenticated")]
    else if s = "emptysub" then some [("sub", .str "")]
    else if s = "numsub" then some [("sub", .num 42)]
    else none
  verify method signingString signature key :=
    method.isHMAC && signature == key ++ "/" ++
      String.mk (signingString.toList.map (fun ch => if ch = '.' then '/' else ch))
  claimsValid m := mapClaimsValidAt now m

/-- A request carrying the given `Authorization` header value and nothing else. -/
def requestWith (authorization : String) : Context :=
  Context.fresh [("Authorization", [authorization])]

/-! ## The HMAC signature -/

/-- The bytes of a string of ASCII characters. -/
def stringBytes (s : String) : List Nat :=
  s.toList.map Char.toNat

/-- The block size in bytes of the hash under an HMAC signing method: 64 for
SHA-256, 128 for SHA-384 and SHA-512. -/
def hmacBlockSize : SigningMethod → Nat
  | .HS256 => 64
  | _ => 128

/-- Modelled from the spec: the key block of the HMAC construction that the
symmetric signing method recomputes the signature with (Go `crypto/hmac`, a
dependency that is not part of the sources). A key longer than the block is
hashed; the key is then padded with zero bytes up to the block size. -/
def hmacKeyBlock (hash : List Nat → List Nat) (blockSize : Nat) (key : List Nat) : List Nat :=
  let k := if blockSize < key.length then hash key else key
  k ++ List.replicate (blockSize - k.length) 0

/-- Modelled from the spec: the HMAC of a message under a key, over the hash
function `hash` (Go `crypto/hmac`, a dependency that is not part of the
sources): the hash of the outer-padded key block followed by the hash of the
inner-padded key block and the message. -/
def hmacSum (hash : List Nat → List Nat) (blockSize : Nat) (key msg : List Nat) : List Nat :=
  let k0 := hmacKeyBlock hash blockSize key
  hash (k0.map (fun b => b ^^^ 0x5c) ++ hash (k0.map (fun b => b ^^^ 0x36) ++ msg))

/-- The Fletcher-16 checksum of a byte string, as two bytes: a hash function
small enough to evaluate. -/
def fletcher16 (bs : List Nat) : List Nat :=
  let r := bs.foldl (fun (acc : Nat × Nat) b =>
    ((acc.1 + b) % 255, (acc.2 + (acc.1 + b) % 255) % 255)) (0, 0)
  [r.2, r.1]

/-- The two hexadecimal digits of a byte. -/
def hexByte (b : Nat) : List Char :=
  ["0123456789abcdef".toList.getD (b / 16 % 16) '0',
   "0123456789abcdef".toList.getD (b % 16) '0']

/-- The hexadecimal text of a byte string. -/
def hexEncode (bs : List Nat) : String :=
  String.mk (bs.flatMap hexByte)

/-- The signature segment of a signing string under a key: the HMAC over `hash`,
written in hexadecimal. -/
def hmacSign (hash : List Nat → List Nat) (method : SigningMethod)
    (signingString key : String) : String :=
  hexEncode (hmacSum hash (hmacBlockSize method) (stringBytes key) (stringBytes signingString))

/-- The instance `sampleLib` with HMAC signatures over `hash`: a signature
verifies under a key when it equals the HMAC recomputed with that key. -/
def hmacLib (hash : List Nat → List Nat) (now : Int) : JwtLib :=
  { sampleLib now with
    verify := fun method signingString signature key =>
      method.isHMAC && signature == hmacSign hash method signingString key }

/-! ## The outcomes of a request -/

/-- The four ways a request leaves the handler. -/
inductive Outcome (lib : JwtLib) (secret : String) (next : Context → Context) (c : Context) :
    Context → Prop where
  | badHeader :
      extractBearerToken c = ("", false) →
      Outcome lib secret next c
        (c.AbortWithStatusJSON StatusUnauthorized
          [("error", "Missing or invalid Authorization header")])
  | invalidToken (t : String) (tok : Option Token) (err : Option ValidationError) :
      extractBearerToken c = (t, true) →
      jwtParse lib t (keyFunc secret) = (tok, err) →
      (err.isSome || tokenNotValid tok) = true →
      Outcome lib secret next c
        ((c.record (.jwtParse t)).AbortWithStatusJSON StatusUnauthorized
          [("error", "Invalid token")])
  | claimsError (t : String) (tok : Token) (e : String) :
      extractBearerToken c = (t, true) →
      jwtParse lib t (keyFunc secret) = (some tok, none) →
      tok.Valid = true →
      extractUserIDFromClaims tok.Claims = ("", some e) →
      Outcome lib secret next c
        ((c.record (.jwtParse t)).AbortWithStatusJSON StatusUnauthorized [("error", e)])
  | success (t : String) (tok : Token) (sub : String) :
      extractBearerToken c = (t, true) →
      jwtParse lib t (keyFunc secret) = (some tok, none) →
      tok.Valid = true →
      extractUserIDFromClaims tok.Claims = (sub, none) →
      Outcome lib secret next c
        (next (((c.record (.jwtParse t)).Set userIDKey (.str sub)).record .next))

/-! ## Lemmas on the string helpers -/

theorem stringsHasPrefix_iff (s pre : String) :
    stringsHasPrefix s pre = true ↔ ∃ t : String, s = pre ++ t := by
  unfold stringsHasPrefix
  rw [List.isPrefixOf_iff_prefix]
  constructor
  · rintro ⟨r, hr⟩
    refine ⟨String.mk r, ?_⟩
    apply String.ext
    exact hr.symm
  · rintro ⟨t, rfl⟩
    exact ⟨t.toList, by simp⟩

theorem stringsTrimPrefix_append (pre t : String) :
    stringsTrimPrefix (pre ++ t) pre = t := by
  have h : stringsHasPrefix (pre ++ t) pre = true := (stringsHasPrefix_iff _ _).2 ⟨t, rfl⟩
  unfold stringsTrimPrefix
  rw [if_pos h]
  apply String.ext
  simp

theorem extractBearerToken_eq_iff (c : Context) (t : String) :
    extractBearerToken c = (t, true) ↔ c.GetHeader "Authorization" = "Bearer " ++ t := by
  unfold extractBearerToken
  constructor
  · intro h
    by_cases hc : (c.GetHeader "Authorization" == "" ||
        !stringsHasPrefix (c.GetHeader "Authorization") "Bearer ") = true
    · simp only [hc, if_true] at h
      exact absurd (congrArg Prod.snd h) (by simp)
    · simp only [hc] at h
      simp only [Bool.or_eq_true, Bool.not_eq_true, not_or, Bool.not_eq_true', Bool.not_eq_false] at hc
      obtain ⟨u, hu⟩ := (stringsHasPrefix_iff _ _).1 (by simpa using hc.2)
      rw [hu, stringsTrimPrefix_append] at h
      have : u = t := congrArg Prod.fst h
      rw [hu, this]
  · intro h
    have hp : stringsHasPrefix ("Bearer " ++ t) "Bearer " = true :=
      (stringsHasPrefix_iff _ _).2 ⟨t, rfl⟩
    have hne : ("Bearer " ++ t == "") = false := by
      rw [beq_eq_false_iff_ne]
      intro h0
      have := congrArg String.length h0
      simp [String.length_append] at this
      have h7 : "Bearer ".length = 7 := by decide
      omega
    simp only [h, hp, hne, Bool.not_true, Bool.or_false, stringsTrimPrefix_append]
    rfl

/-! ## Lemmas on the handler: one equation per branch -/

theorem extractBearerToken_snd_false (c : Context) (t : String)
    (h : extractBearerToken c = (t, false)) : t = "" := by
  unfold extractBearerToken at h
  by_cases hc : (c.GetHeader "Authorization" == "" ||
      !stringsHasPrefix (c.GetHeader "Authorization") "Bearer ") = true
  · simp only [hc, if_true] at h
    exact (congrArg Prod.fst h).symm
  · simp only [hc] at h
    exact absurd (congrArg Prod.snd h) (by simp)

theorem extractBearerToken_without_bearer (c : Context)
    (h : ¬ ∃ t : String, c.GetHeader "Authorization" = "Bearer " ++ t) :
    extractBearerToken c = ("", false) := by
  have hp : stringsHasPrefix (c.GetHeader "Authorization") "Bearer " = false := by
    rw [← Bool.not_eq_true, stringsHasPrefix_iff]
    exact h
  unfold extractBearerToken
  simp [hp]

theorem authHandler_bad_header (lib : JwtLib) (secret : String) (next : Context → Context)
    (c : Context) (t : String) (h : extractBearerToken c = (t, false)) :
    authHandler lib secret next c =
      c.AbortWithStatusJSON StatusUnauthorized
        [("error", "Missing or invalid Authorization header")] := by
  unfold authHandler
  rw [h]

theorem authHandler_invalid_token (lib : JwtLib) (secret : String) (next : Context → Context)
    (c : Context) (t : String) (tok : Option Token) (err : Option ValidationError)
    (h : extractBearerToken c = (t, true))
    (hp : jwtParse lib t (keyFunc secret) = (tok, err))
    (hv : (err.isSome || tokenNotValid tok) = true) :
    authHandler lib secret next c =
      (c.record (.jwtParse t)).AbortWithStatusJSON StatusUnauthorized
        [("error", "Invalid token")] := by
  unfold authHandler
  rw [h]
  simp only [hp, hv, if_true]

theorem authHandler_claims_error (lib : JwtLib) (secret : String) (next : Context → Context)
    (c : Context) (t : String) (tok : Token) (x e : String)
    (h : extractBearerToken c = (t, true))
    (hp : jwtParse lib t (keyFunc secret) = (some tok, none))
    (hv : tok.Valid = true)
    (hs : extractUserIDFromClaims tok.Claims = (x, some e)) :
    authHandler lib secret next c =
      (c.record (.jwtParse t)).AbortWithStatusJSON StatusUnauthorized [("error", e)] := by
  unfold authHandler
  rw [h]
  simp [hp, hv, hs, tokenNotValid]

theorem authHandler_success (lib : JwtLib) (secret : String) (next : Context → Context)
    (c : Context) (t : String) (tok : Token) (sub : String)
    (h : extractBearerToken c = (t, true))
    (hp : jwtParse lib t (keyFunc secret) = (some tok, none))
    (hv : tok.Valid = true)
    (hs : extractUserIDFromClaims tok.Claims = (sub, none)) :
    authHandler lib secret next c =
      next (((c.record (.jwtParse t)).Set userIDKey (.str sub)).record .next) := by
  unfold authHandler
  rw [h]
  simp [hp, hv, hs, tokenNotValid]

theorem extractUserIDFromClaims_error_fst (claims : Claims) (x e : String)
    (h : extractUserIDFromClaims claims = (x, some e)) : x = "" := by
  unfold extractUserIDFromClaims at h
  cases claims with
  | otherClaims => exact (congrArg Prod.fst h).symm
  | mapClaims m =>
    simp only at h
    split at h
    · exact (congrArg Prod.fst h).symm
    · exact absurd (congrArg Prod.snd h) (by simp)

theorem authHandler_outcome (lib : JwtLib) (secret : String) (next : Context → Context)
    (c : Context) : Outcome lib secret next c (authHandler lib secret next c) := by
  rcases hx : extractBearerToken c with ⟨t, ok⟩
  cases ok with
  | false =>
    rw [authHandler_bad_header lib secret next c t hx]
    have ht := extractBearerToken_snd_false c t hx
    subst ht
    exact Outcome.badHeader hx
  | true =>
    rcases hp : jwtParse lib t (keyFunc secret) with ⟨tok, err⟩
    by_cases hv : (err.isSome || tokenNotValid tok) = true
    · rw [authHandler_invalid_token lib secret next c t tok err hx hp hv]
      exact Outcome.invalidToken t tok err hx hp hv
    · simp only [Bool.or_eq_true, not_or, Bool.not_eq_true] at hv
      obtain ⟨he, hn⟩ := hv
      cases err with
      | some e => simp at he
      | none =>
        cases tok with
        | none => simp [tokenNotValid] at hn
        | some tk =>
          have hval : tk.Valid = true := by simpa [tokenNotValid] using hn
          rcases hs : extractUserIDFromClaims tk.Claims with ⟨x, e⟩
          cases e with
          | some e =>
            have hx0 := extractUserIDFromClaims_error_fst _ _ _ hs
            subst hx0
            rw [authHandler_claims_error lib secret next c t tk "" e hx hp hval hs]
            exact Outcome.claimsError t tk e hx hp hval hs
          | none =>
            rw [authHandler_success lib secret next c t tk x hx hp hval hs]
            exact Outcome.success t tk x hx hp hval hs

/-! ## Lemmas on the token validator -/

theorem jwtParse_parse_error (lib : JwtLib) (t : String)
    (kf : Token → Option String × Option String) (e : ValidationError)
    (h : ParseUnverified lib t = .error e) : jwtParse lib t kf = (none, some e) := by
  unfold jwtParse
  rw [h]

theorem keyFunc_not_hmac (secret : String) (tok : Token) (h : tok.Method.isHMAC = false) :
    keyFunc secret tok =
      (none, some ("unexpected signing method: " ++
        ((tok.Header.lookup "alg").getD .nil).format)) := by
  unfold keyFunc
  simp [h]

theorem keyFunc_hmac (secret : String) (tok : Token) (h : tok.Method.isHMAC = true) :
    keyFunc secret tok = (some secret, none) := by
  unfold keyFunc
  simp [h]

theorem jwtParse_not_hmac (lib : JwtLib) (secret t : String) (tok : Token) (p0 p1 p2 : String)
    (h : ParseUnverified lib t = .ok (tok, p0, p1, p2)) (hm : tok.Method.isHMAC = false) :
    jwtParse lib t (keyFunc secret) = (some tok, some { unverifiable := true }) := by
  unfold jwtParse
  rw [h]
  simp only [keyFunc_not_hmac secret tok hm]

theorem jwtParse_hmac_ok (lib : JwtLib) (secret t : String) (tok : Token) (p0 p1 p2 : String)
    (h : ParseUnverified lib t = .ok (tok, p0, p1, p2)) (hm : tok.Method.isHMAC = true)
    (hc : claimsValid lib tok.Claims = true)
    (hs : lib.verify tok.Method (p0 ++ "." ++ p1) p2 secret = true) :
    jwtParse lib t (keyFunc secret) =
      (some { tok with Signature := p2, Valid := true }, none) := by
  unfold jwtParse
  rw [h]
  simp [keyFunc_hmac secret tok hm, hc, hs, ValidationError.valid]

theorem jwtParse_hmac_bad_signature (lib : JwtLib) (secret t : String) (tok : Token)
    (p0 p1 p2 : String)
    (h : ParseUnverified lib t = .ok (tok, p0, p1, p2)) (hm : tok.Method.isHMAC = true)
    (hs : lib.verify tok.Method (p0 ++ "." ++ p1) p2 secret = false) :
    jwtParse lib t (keyFunc secret) =
      (some { tok with Signature := p2 },
        some { claimsInvalid := !claimsValid lib tok.Claims, signatureInvalid := true }) := by
  unfold jwtParse
  rw [h]
  cases hc : claimsValid lib tok.Claims <;>
    simp [keyFunc_hmac secret tok hm, hc, hs, ValidationError.valid]

theorem ParseUnverified_empty (lib : JwtLib) :
    ParseUnverified lib "" = .error { malformed := true } := by
  rfl

theorem extractUserIDFromClaims_sub (m : List (String × GoAny)) (s : String)
    (h : m.lookup "sub" = some (.str s)) (hs : s ≠ "") :
    extractUserIDFromClaims (.mapClaims m) = (s, none) := by
  unfold extractUserIDFromClaims mapAssertString
  simp [h, GoAny.assertString, hs]

theorem extractUserIDFromClaims_missing (m : List (String × GoAny))
    (h : m.lookup "sub" = none ∨ (∃ v, m.lookup "sub" = some v ∧ ∀ s, v ≠ .str s) ∨
      m.lookup "sub" = some (.str "")) :
    extractUserIDFromClaims (.mapClaims m) = ("", some "missing sub in token") := by
  unfold extractUserIDFromClaims mapAssertString
  rcases h with h | ⟨v, h, hv⟩ | h
  · simp [h]
  · cases v with
    | str s => exact absurd rfl (hv s)
    | nil => simp [h, GoAny.assertString]
    | bool b => simp [h, GoAny.assertString]
    | num n => simp [h, GoAny.assertString]
    | composite j => simp [h, GoAny.assertString]
  · simp [h, GoAny.assertString]

theorem GetUserID_eq_true_iff (c : Context) (s : String) :
    GetUserID c = (s, true) ↔ c.keys.lookup userIDKey = some (.str s) := by
  unfold GetUserID Context.Get
  cases h : c.keys.lookup userIDKey with
  | none => simp
  | some v => cases v <;> simp [GoAny.assertString]

theorem GetUserID_unbound (c : Context) (h : c.keys.lookup userIDKey = none) :
    GetUserID c = ("", false) := by
  unfold GetUserID Context.Get
  simp [h]

theorem GetUserID_Set_record (c : Context) (s : String) (e : Event) :
    GetUserID ((c.Set userIDKey (.str s)).record e) = (s, true) := by
  rw [GetUserID_eq_true_iff]
  simp [Context.Set, Context.record]

theorem not_bearer_of_empty (h : String) (h0 : h = "") :
    ¬ ∃ t : String, h = "Bearer " ++ t := by
  rintro ⟨t, ht⟩
  have hl := congrArg String.length ht
  rw [h0, String.length_append] at hl
  have h7 : "Bearer ".length = 7 := by decide
  have h00 : "".length = 0 := by decide
  omega

theorem GetHeader_absent (c : Context) (key : String) (h : c.header.lookup key = none) :
    c.GetHeader key = "" := by
  unfold Context.GetHeader
  rw [h]

theorem extractUserIDFromClaims_error_message (claims : Claims) (x e : String)
    (h : extractUserIDFromClaims claims = (x, some e)) :
    e = "missing sub in token" ∨ e = "invalid token claims" := by
  unfold extractUserIDFromClaims at h
  cases claims with
  | otherClaims =>
    right
    have := congrArg Prod.snd h
    simpa using this.symm
  | mapClaims m =>
    left
    simp only at h
    split at h
    · have := congrArg Prod.snd h
      simpa using this.symm
    · exact absurd (congrArg Prod.snd h) (by simp)

theorem ite_some_not_hmac (p : Prop) [Decidable p] (a method : SigningMethod)
    (r : Option SigningMethod) (ha : a.isHMAC = false) (hm : method.isHMAC = true)
    (h : (if p then some a else r) = some method) : r = some method := by
  by_cases hp : p
  · rw [if_pos hp] at h
    injection h with h
    rw [h, hm] at ha
    exact absurd ha (by decide)
  · rw [if_neg hp] at h
    exact h

theorem GetSigningMethod_isHMAC (alg : String) (method : SigningMethod)
    (h : GetSigningMethod alg = some method) (hm : method.isHMAC = true) :
    alg = "HS256" ∨ alg = "HS384" ∨ alg = "HS512" := by
  by_cases h1 : alg = "HS256"
  · exact Or.inl h1
  by_cases h2 : alg = "HS384"
  · exact Or.inr (Or.inl h2)
  by_cases h3 : alg = "HS512"
  · exact Or.inr (Or.inr h3)
  exfalso
  unfold GetSigningMethod at h
  rw [if_neg h1, if_neg h2, if_neg h3] at h
  have h := ite_some_not_hmac _ .RS256 method _ rfl hm h
  have h := ite_some_not_hmac _ .RS384 method _ rfl hm h
  have h := ite_some_not_hmac _ .RS512 method _ rfl hm h
  have h := ite_some_not_hmac _ .PS256 method _ rfl hm h
  have h := ite_some_not_hmac _ .PS384 method _ rfl hm h
  have h := ite_some_not_hmac _ .PS512 method _ rfl hm h
  have h := ite_some_not_hmac _ .ES256 method _ rfl hm h
  have h := ite_some_not_hmac _ .ES384 method _ rfl hm h
  have h := ite_some_not_hmac _ .ES512 method _ rfl hm h
  have h := ite_some_not_hmac _ .EdDSA method _ rfl hm h
  have h := ite_some_not_hmac _ .None method _ rfl hm h
  cases h

theorem ParseUnverified_malformed (lib : JwtLib) (t : String)
    (h : (splitDots t.toList).length ≠ 3) :
    ParseUnverified lib t = .error { malformed := true } := by
  unfold ParseUnverified
  split
  · next p0 p1 p2 heq =>
    have hl := congrArg List.length heq
    rw [List.length_map] at hl
    exact absurd hl h
  · rfl

theorem ParseUnverified_ok_method (lib : JwtLib) (t : String) (tok : Token)
    (q0 q1 q2 p0 p1 p2 : String) (header : List (String × GoAny)) (alg : String)
    (hsplit : (splitDots t.toList).map String.mk = [p0, p1, p2])
    (hh : lib.decodeHeader p0 = some header)
    (halg : header.lookup "alg" = some (.str alg))
    (hp : ParseUnverified lib t = .ok (tok, q0, q1, q2)) :
    GetSigningMethod alg = some tok.Method := by
  unfold ParseUnverified at hp
  rw [hsplit] at hp
  simp only [hh, mapAssertString, halg, GoAny.assertString] at hp
  cases hc : lib.decodeClaims p1 with
  | none => simp [hc] at hp
  | some claims =>
    simp only [hc] at hp
    cases hg : GetSigningMethod alg with
    | none => simp [hg] at hp
    | some method =>
      simp only [hg] at hp
      injection hp with hp
      injection hp with hp _
      rw [← hp]

theorem hmacKeyBlock_zero_padded (hash : List Nat → List Nat) (blockSize : Nat)
    (key : List Nat) (h : key.length < blockSize) :
    hmacKeyBlock hash blockSize (key ++ [0]) = hmacKeyBlock hash blockSize key := by
  unfold hmacKeyBlock
  simp only [List.length_append, List.length_singleton]
  rw [if_neg (by omega), if_neg (by omega)]
  have h3 : blockSize - key.length = (blockSize - (key.length + 1)) + 1 := by omega
  simp only [List.length_append, List.length_singleton]
  rw [h3, List.replicate_succ]
  simp

theorem hmacSign_zero_padded (hash : List Nat → List Nat) (method : SigningMethod)
    (signingString key : String) (h : (stringBytes key).length < hmacBlockSize method) :
    hmacSign hash method signingString (key ++ String.mk [Char.ofNat 0]) =
      hmacSign hash method signingString key := by
  have hb : stringBytes (key ++ String.mk [Char.ofNat 0]) = stringBytes key ++ [0] := by
    simp [stringBytes]
  unfold hmacSign hmacSum
  simp only [hb, hmacKeyBlock_zero_padded hash _ _ h]

/-! ## The claims -/

/-- Claim C10: `extractBearerToken` returns `(t, true)` exactly when the
`Authorization` header value is `"Bearer "` followed by `t`: the match is
case-sensitive, one leading `"Bearer "` is stripped and nothing else is trimmed.
The header `"Bearer "` alone yields `("", true)`, and the handler passes that
empty token to the validator (which then rejects it). -/
theorem extractBearerToken_strips_exact_bearer :
    (∀ (c : Context) (t : String),
      extractBearerToken c = (t, true) ↔ c.GetHeader "Authorization" = "Bearer " ++ t) ∧
    (∀ c : Context, c.GetHeader "Authorization" = "Bearer " →
      extractBearerToken c = ("", true)) ∧
    (∀ (lib : JwtLib) (secret : String) (next : Context → Context) (c : Context),
      c.GetHeader "Authorization" = "Bearer " →
      authHandler lib secret next c =
        (c.record (.jwtParse "")).AbortWithStatusJSON StatusUnauthorized
          [("error", "Invalid token")]) ∧
    extractBearerToken (requestWith "bearer abc") = ("", false) ∧
    extractBearerToken (requestWith "Bearer  abc ") = (" abc ", true) ∧
    extractBearerToken (requestWith "Bearer Bearer abc") = ("Bearer abc", true) := by
  refine ⟨extractBearerToken_eq_iff, ?_, ?_, by decide, by decide, by decide⟩
  · intro c h
    exact (extractBearerToken_eq_iff c "").2 (by rw [h]; rfl)
  · intro lib secret next c h
    have hx : extractBearerToken c = ("", true) :=
      (extractBearerToken_eq_iff c "").2 (by rw [h]; rfl)
    exact authHandler_invalid_token lib secret next c "" none (some { malformed := true }) hx
      (jwtParse_parse_error lib "" _ _ (ParseUnverified_empty lib)) rfl

/-- Witness of C10 on the request whose header is `"Bearer "`. -/
theorem extractBearerToken_strips_exact_bearer_witness :
    (requestWith "Bearer ").GetHeader "Authorization" = "Bearer " ∧
    extractBearerToken (requestWith "Bearer ") = ("", true) ∧
    (authHandler (sampleLib 2000) "s3cret" id (requestWith "Bearer ")).log = [.jwtParse ""] :=
  ⟨by decide,
   extractBearerToken_strips_exact_bearer.2.1 (requestWith "Bearer ") (by decide),
   by rw [extractBearerToken_strips_exact_bearer.2.2.1 (sampleLib 2000) "s3cret" id
        (requestWith "Bearer ") (by decide)]; rfl⟩

/-- Claim C4: when the `Authorization` header is absent, empty, or does not begin
with the exact prefix `"Bearer "`, `extractBearerToken` returns `("", false)` and
the handler aborts with 401 Unauthorized without calling the token validator:
the log of calls is left as it was. -/
theorem authHandler_bad_header_rejected_before_validation (lib : JwtLib) (secret : String)
    (next : Context → Context) (c : Context)
    (h : c.header.lookup "Authorization" = none ∨ c.GetHeader "Authorization" = "" ∨
      ¬ ∃ t : String, c.GetHeader "Authorization" = "Bearer " ++ t) :
    extractBearerToken c = ("", false) ∧
    authHandler lib secret next c =
      c.AbortWithStatusJSON StatusUnauthorized
        [("error", "Missing or invalid Authorization header")] ∧
    (authHandler lib secret next c).aborted = true ∧
    (authHandler lib secret next c).status = some 401 ∧
    (authHandler lib secret next c).keys = c.keys ∧
    (authHandler lib secret next c).log = c.log := by
  have hno : ¬ ∃ t : String, c.GetHeader "Authorization" = "Bearer " ++ t := by
    rcases h with h | h | h
    · exact not_bearer_of_empty _ (GetHeader_absent c _ h)
    · exact not_bearer_of_empty _ h
    · exact h
  have hx := extractBearerToken_without_bearer c hno
  have hr := authHandler_bad_header lib secret next c "" hx
  refine ⟨hx, hr, ?_, ?_, ?_, ?_⟩ <;> rw [hr] <;> rfl

/-- Witness of C4 on a request without an `Authorization` header. -/
theorem authHandler_bad_header_rejected_before_validation_witness :
    (Context.fresh []).header.lookup "Authorization" = none ∧
    (authHandler (sampleLib 2000) "s3cret" id (Context.fresh [])).status = some 401 ∧
    (authHandler (sampleLib 2000) "s3cret" id (Context.fresh [])).log = [] :=
  ⟨rfl,
   (authHandler_bad_header_rejected_before_validation (sampleLib 2000) "s3cret" id
      (Context.fresh []) (Or.inl rfl)).2.2.2.1,
   (authHandler_bad_header_rejected_before_validation (sampleLib 2000) "s3cret" id
      (Context.fresh []) (Or.inl rfl)).2.2.2.2.2⟩

/-- Claim C7: `GetUserID` on a context with no value bound under `"userID"`
returns the absent indicator `false`; whenever it returns `true` the string is
exactly the bound value; so an identity that is the empty string, `("", true)`,
differs from no identity, `("", false)`, and `GetHoldings` answers 401 only in
the second case. -/
theorem GetUserID_absent_is_not_empty_identity :
    (∀ c : Context, c.keys.lookup userIDKey = none → GetUserID c = ("", false)) ∧
    (∀ (c : Context) (s : String), GetUserID c = (s, true) →
      c.Get userIDKey = (.str s, true)) ∧
    (∀ c : Context, GetUserID (c.Set userIDKey (.str "")) = ("", true)) ∧
    (∀ c : Context, c.keys.lookup userIDKey = none →
      GetUserID c ≠ GetUserID (c.Set userIDKey (.str ""))) ∧
    (∀ (q : String → String × Option String) (c : Context),
      c.keys.lookup userIDKey = none →
      GetHoldings q c = c.JSON StatusUnauthorized (.H [("error", "Unauthorized")])) ∧
    (∀ (q : String → String × Option String) (c : Context) (rows : String),
      q "" = (rows, none) →
      GetHoldings q (c.Set userIDKey (.str "")) =
        (c.Set userIDKey (.str "")).JSON 200 (.data rows)) := by
  have hset : ∀ c : Context, GetUserID (c.Set userIDKey (.str "")) = ("", true) := by
    intro c
    rw [GetUserID_eq_true_iff]
    simp [Context.Set]
  refine ⟨GetUserID_unbound, ?_, hset, ?_, ?_, ?_⟩
  · intro c s h
    have := (GetUserID_eq_true_iff c s).1 h
    unfold Context.Get
    rw [this]
  · intro c h
    rw [GetUserID_unbound c h, hset c]
    simp
  · intro q c h
    unfold GetHoldings
    rw [GetUserID_unbound c h]
  · intro q c rows hq
    unfold GetHoldings
    rw [hset c]
    simp only [hq]

/-- Witness of C7 on a fresh request and on one bound to the empty identity. -/
theorem GetUserID_absent_is_not_empty_identity_witness :
    GetUserID (Context.fresh []) = ("", false) ∧
    (Context.fresh [] |>.Set userIDKey (.str "user-42")).Get userIDKey =
      (.str "user-42", true) ∧
    GetUserID (Context.fresh []) ≠ GetUserID ((Context.fresh []).Set userIDKey (.str "")) :=
  ⟨GetUserID_absent_is_not_empty_identity.1 (Context.fresh []) rfl,
   GetUserID_absent_is_not_empty_identity.2.1
     ((Context.fresh []).Set userIDKey (.str "user-42")) "user-42" (by decide),
   GetUserID_absent_is_not_empty_identity.2.2.2.1 (Context.fresh []) rfl⟩

/-- Claim C2: for a claim set whose `sub` is missing, is not a string, or is the
empty string, `extractUserIDFromClaims` returns the error `"missing sub in token"`
and no identity; for a claim set with a non-empty string `sub` it returns that
string and no error; and when it errors inside the handler the request is
aborted with 401 and nothing is bound. -/
theorem extractUserIDFromClaims_sub_or_error :
    (∀ m : List (String × GoAny),
      (m.lookup "sub" = none ∨ (∃ v, m.lookup "sub" = some v ∧ ∀ s, v ≠ .str s) ∨
        m.lookup "sub" = some (.str "")) →
      extractUserIDFromClaims (.mapClaims m) = ("", some "missing sub in token")) ∧
    (∀ (m : List (String × GoAny)) (s : String),
      m.lookup "sub" = some (.str s) → s ≠ "" →
      extractUserIDFromClaims (.mapClaims m) = (s, none)) ∧
    (∀ (lib : JwtLib) (secret : String) (next : Context → Context) (c : Context)
      (t : String) (tok : Token) (x e : String),
      extractBearerToken c = (t, true) →
      jwtParse lib t (keyFunc secret) = (some tok, none) →
      tok.Valid = true →
      extractUserIDFromClaims tok.Claims = (x, some e) →
      authHandler lib secret next c =
        (c.record (.jwtParse t)).AbortWithStatusJSON StatusUnauthorized [("error", e)] ∧
      (authHandler lib secret next c).status = some 401 ∧
      (authHandler lib secret next c).keys = c.keys) := by
  refine ⟨extractUserIDFromClaims_missing, extractUserIDFromClaims_sub, ?_⟩
  intro lib secret next c t tok x e hx hp hv hs
  have hr := authHandler_claims_error lib secret next c t tok x e hx hp hv hs
  refine ⟨hr, ?_, ?_⟩ <;> rw [hr] <;> rfl

/-- Witness of C2: claim sets without `sub`, with a numeric `sub`, with an empty
`sub` and with the `sub` `"user-42"`, and a signed request without `sub`. -/
theorem extractUserIDFromClaims_sub_or_error_witness :
    extractUserIDFromClaims (.mapClaims [("role", .str "authenticated")]) =
      ("", some "missing sub in token") ∧
    extractUserIDFromClaims (.mapClaims [("sub", .num 42)]) =
      ("", some "missing sub in token") ∧
    extractUserIDFromClaims (.mapClaims [("sub", .str "")]) =
      ("", some "missing sub in token") ∧
    extractUserIDFromClaims (.mapClaims [("sub", .str "user-42")]) = ("user-42", none) ∧
    (authHandler (sampleLib 2000) "s3cret" id
      (requestWith "Bearer hs256.nosub.s3cret/hs256/nosub")).keys = [] :=
  ⟨extractUserIDFromClaims_sub_or_error.1 _ (Or.inl rfl),
   extractUserIDFromClaims_sub_or_error.1 _
     (Or.inr (Or.inl ⟨.num 42, rfl, fun _ h => GoAny.noConfusion h⟩)),
   extractUserIDFromClaims_sub_or_error.1 _ (Or.inr (Or.inr rfl)),
   extractUserIDFromClaims_sub_or_error.2.1 _ "user-42" rfl (by decide),
   (extractUserIDFromClaims_sub_or_error.2.2 (sampleLib 2000) "s3cret" id
      (requestWith "Bearer hs256.nosub.s3cret/hs256/nosub") "hs256.nosub.s3cret/hs256/nosub"
      { Raw := "hs256.nosub.s3cret/hs256/nosub", Method := .HS256,
        Header := [("alg", .str "HS256"), ("typ", .str "JWT")],
        Claims := .mapClaims [("role", .str "authenticated")],
        Signature := "s3cret/hs256/nosub", Valid := true }
      "" "missing sub in token" (by decide) (by decide) rfl (by decide)).2.2⟩

/-- Claim C6: in each of the three failure branches of the handler (bad header,
invalid token, missing subject) the request is aborted with 401 Unauthorized and
the rest of the chain is not run: the result does not depend on `next` and the
log gains no `next` call. The rest of the chain runs only on the success path,
on a context in which the identity is already bound. -/
theorem authHandler_next_only_after_binding (lib : JwtLib) (secret : String)
    (next : Context → Context) (c : Context) :
    (extractBearerToken c = ("", false) ∧
      authHandler lib secret next c =
        c.AbortWithStatusJSON StatusUnauthorized
          [("error", "Missing or invalid Authorization header")] ∧
      (authHandler lib secret next c).aborted = true ∧
      (authHandler lib secret next c).status = some 401 ∧
      (authHandler lib secret next c).log = c.log) ∨
    (∃ (t : String) (tok : Option Token) (err : Option ValidationError),
      extractBearerToken c = (t, true) ∧
      jwtParse lib t (keyFunc secret) = (tok, err) ∧
      (err.isSome || tokenNotValid tok) = true ∧
      authHandler lib secret next c =
        (c.record (.jwtParse t)).AbortWithStatusJSON StatusUnauthorized
          [("error", "Invalid token")] ∧
      (authHandler lib secret next c).aborted = true ∧
      (authHandler lib secret next c).status = some 401 ∧
      (authHandler lib secret next c).log = c.log ++ [.jwtParse t]) ∨
    (∃ (t : String) (tok : Token) (e : String),
      extractBearerToken c = (t, true) ∧
      jwtParse lib t (keyFunc secret) = (some tok, none) ∧
      tok.Valid = true ∧
      extractUserIDFromClaims tok.Claims = ("", some e) ∧
      authHandler lib secret next c =
        (c.record (.jwtParse t)).AbortWithStatusJSON StatusUnauthorized [("error", e)] ∧
      (authHandler lib secret next c).aborted = true ∧
      (authHandler lib secret next c).status = some 401 ∧
      (authHandler lib secret next c).log = c.log ++ [.jwtParse t]) ∨
    (∃ (t : String) (tok : Token) (sub : String) (d : Context),
      extractBearerToken c = (t, true) ∧
      jwtParse lib t (keyFunc secret) = (some tok, none) ∧
      tok.Valid = true ∧
      extractUserIDFromClaims tok.Claims = (sub, none) ∧
      d = ((c.record (.jwtParse t)).Set userIDKey (.str sub)).record .next ∧
      authHandler lib secret next c = next d ∧
      GetUserID d = (sub, true) ∧
      d.aborted = c.aborted ∧ d.status = c.status ∧
      d.log = c.log ++ [.jwtParse t, .next]) := by
  have h := authHandler_outcome lib secret next c
  generalize authHandler lib secret next c = r at h ⊢
  cases h with
  | badHeader hx =>
    exact Or.inl ⟨hx, rfl, rfl, rfl, rfl⟩
  | invalidToken t tok err hx hp hv =>
    exact Or.inr (Or.inl ⟨t, tok, err, hx, hp, hv, rfl, rfl, rfl, rfl⟩)
  | claimsError t tok e hx hp hv hs =>
    exact Or.inr (Or.inr (Or.inl ⟨t, tok, e, hx, hp, hv, hs, rfl, rfl, rfl, rfl⟩))
  | success t tok sub hx hp hv hs =>
    refine Or.inr (Or.inr (Or.inr ⟨t, tok, sub, _, hx, hp, hv, hs, rfl, rfl, ?_, rfl, rfl, ?_⟩))
    · exact GetUserID_Set_record _ _ _
    · simp [Context.record, Context.Set]

/-- Claim C8: with an empty (or unset) `SUPABASE_JWT_SECRET` the construction
`AuthMiddleware` fails and returns no handler; with a non-empty secret it returns
the handler over that secret; so every handler that exists validates against a
non-empty secret, and each request to it ends either in the rest of the chain or
in a 401 carrying one of the authentication messages, never in a configuration
failure. -/
theorem AuthMiddleware_fails_fast_on_empty_secret (lib : JwtLib)
    (env : List (String × String)) :
    (env.lookup "SUPABASE_JWT_SECRET" = none →
      AuthMiddleware lib env = .error "SUPABASE_JWT_SECRET is not set") ∧
    (Getenv env "SUPABASE_JWT_SECRET" = "" →
      AuthMiddleware lib env = .error "SUPABASE_JWT_SECRET is not set") ∧
    (Getenv env "SUPABASE_JWT_SECRET" ≠ "" →
      AuthMiddleware lib env = .ok (authHandler lib (Getenv env "SUPABASE_JWT_SECRET"))) ∧
    (∀ h : (Context → Context) → Context → Context, AuthMiddleware lib env = .ok h →
      ∃ secret : String, secret ≠ "" ∧ secret = Getenv env "SUPABASE_JWT_SECRET" ∧
        h = authHandler lib secret ∧
        ∀ (next : Context → Context) (c : Context),
          (∃ d : Context, GetUserID d ≠ ("", false) ∧ h next c = next d) ∨
          ((h next c).status = some 401 ∧
            ∃ msg : String, (h next c).body = .H [("error", msg)] ∧
              msg ∈ ["Missing or invalid Authorization header", "Invalid token",
                "missing sub in token", "invalid token claims"])) := by
  have hempty : Getenv env "SUPABASE_JWT_SECRET" = "" →
      AuthMiddleware lib env = .error "SUPABASE_JWT_SECRET is not set" := by
    intro h
    unfold AuthMiddleware
    simp [h]
  have hok : Getenv env "SUPABASE_JWT_SECRET" ≠ "" →
      AuthMiddleware lib env = .ok (authHandler lib (Getenv env "SUPABASE_JWT_SECRET")) := by
    intro h
    unfold AuthMiddleware
    simp [h]
  refine ⟨?_, hempty, hok, ?_⟩
  · intro h
    apply hempty
    unfold Getenv
    rw [h]
    rfl
  · intro h hh
    by_cases he : Getenv env "SUPABASE_JWT_SECRET" = ""
    · rw [hempty he] at hh
      exact absurd hh (by simp)
    · rw [hok he] at hh
      have hh2 : authHandler lib (Getenv env "SUPABASE_JWT_SECRET") = h := by
        injection hh
      refine ⟨_, he, rfl, hh2.symm, ?_⟩
      intro next c
      rw [← hh2]
      have ho := authHandler_outcome lib (Getenv env "SUPABASE_JWT_SECRET") next c
      generalize authHandler lib (Getenv env "SUPABASE_JWT_SECRET") next c = r at ho ⊢
      cases ho with
      | badHeader hx =>
        exact Or.inr ⟨rfl, _, rfl, by simp⟩
      | invalidToken t tok err hx hp hv =>
        exact Or.inr ⟨rfl, _, rfl, by simp⟩
      | claimsError t tok e hx hp hv hs =>
        refine Or.inr ⟨rfl, e, rfl, ?_⟩
        rcases extractUserIDFromClaims_error_message _ _ _ hs with h1 | h1 <;> simp [h1]
      | success t tok sub hx hp hv hs =>
        refine Or.inl ⟨_, ?_, rfl⟩
        rw [GetUserID_Set_record]
        simp

/-- Witness of C8: an environment without the secret, one with an empty secret
and one with the secret `"s3cret"`. -/
theorem AuthMiddleware_fails_fast_on_empty_secret_witness :
    AuthMiddleware (sampleLib 2000) [("PORT", "8080")] =
      .error "SUPABASE_JWT_SECRET is not set" ∧
    AuthMiddleware (sampleLib 2000) [("SUPABASE_JWT_SECRET", "")] =
      .error "SUPABASE_JWT_SECRET is not set" ∧
    AuthMiddleware (sampleLib 2000) [("SUPABASE_JWT_SECRET", "s3cret")] =
      .ok (authHandler (sampleLib 2000) "s3cret") ∧
    (∃ secret : String, secret ≠ "" ∧ secret = "s3cret") :=
  ⟨(AuthMiddleware_fails_fast_on_empty_secret (sampleLib 2000) [("PORT", "8080")]).1
      (by decide),
   (AuthMiddleware_fails_fast_on_empty_secret (sampleLib 2000)
      [("SUPABASE_JWT_SECRET", "")]).2.1 (by decide),
   (AuthMiddleware_fails_fast_on_empty_secret (sampleLib 2000)
      [("SUPABASE_JWT_SECRET", "s3cret")]).2.2.1 (by decide),
   (((AuthMiddleware_fails_fast_on_empty_secret (sampleLib 2000)
      [("SUPABASE_JWT_SECRET", "s3cret")]).2.2.2 (authHandler (sampleLib 2000) "s3cret")
      (by rfl)).imp (fun _ h => ⟨h.1, h.2.1⟩))⟩

/-- Claim C5: for a request that starts with no `"userID"` binding, and a rest of
the chain that leaves that key alone, a binding is present after the handler if
and only if header extraction, token validation (no error and `token.Valid`) and
subject extraction all succeeded; the bound value is then the extracted subject. -/
theorem binding_iff_all_stages_succeeded (lib : JwtLib) (secret : String)
    (next : Context → Context) (c : Context)
    (hfresh : c.keys.lookup userIDKey = none)
    (hnext : ∀ d : Context, (next d).keys.lookup userIDKey = d.keys.lookup userIDKey) :
    (((authHandler lib secret next c).Get userIDKey).2 = true ↔
      ∃ (t : String) (tok : Token) (sub : String),
        extractBearerToken c = (t, true) ∧
        jwtParse lib t (keyFunc secret) = (some tok, none) ∧
        tok.Valid = true ∧
        extractUserIDFromClaims tok.Claims = (sub, none)) ∧
    (∀ s : String, GetUserID (authHandler lib secret next c) = (s, true) ↔
      ∃ (t : String) (tok : Token),
        extractBearerToken c = (t, true) ∧
        jwtParse lib t (keyFunc secret) = (some tok, none) ∧
        tok.Valid = true ∧
        extractUserIDFromClaims tok.Claims = (s, none)) := by
  have hbound : ∀ (d : Context) (s : String) (e : Event),
      (next ((d.Set userIDKey (.str s)).record e)).keys.lookup userIDKey = some (.str s) := by
    intro d s e
    rw [hnext]
    simp [Context.Set, Context.record]
  have hget : ∀ d : Context, d.keys.lookup userIDKey = none → (d.Get userIDKey).2 = false := by
    intro d hd
    unfold Context.Get
    rw [hd]
  have hget2 : ∀ (d : Context) (v : GoAny), d.keys.lookup userIDKey = some v →
      (d.Get userIDKey).2 = true := by
    intro d v hd
    unfold Context.Get
    rw [hd]
  have ho := authHandler_outcome lib secret next c
  generalize authHandler lib secret next c = r at ho ⊢
  cases ho with
  | badHeader hx =>
    constructor
    · rw [hget (c.AbortWithStatusJSON StatusUnauthorized
        [("error", "Missing or invalid Authorization header")]) hfresh]
      simp [hx]
    · intro s
      rw [GetUserID_eq_true_iff]
      simp [Context.AbortWithStatusJSON, hfresh, hx]
  | invalidToken t tok err hx hp hv =>
    have hno : ¬ ∃ tk : Token, jwtParse lib t (keyFunc secret) = (some tk, none) ∧
        tk.Valid = true := by
      rintro ⟨tk, h1, h2⟩
      rw [hp] at h1
      injection h1 with h3 h4
      subst h3
      subst h4
      simp [tokenNotValid, h2] at hv
    constructor
    · rw [hget ((c.record (.jwtParse t)).AbortWithStatusJSON StatusUnauthorized
        [("error", "Invalid token")]) hfresh]
      simp only [Bool.false_eq_true, false_iff]
      rintro ⟨t2, tk, sub, h1, h2, h3, _⟩
      rw [hx] at h1
      injection h1 with h5 _
      subst h5
      exact hno ⟨tk, h2, h3⟩
    · intro s
      rw [GetUserID_eq_true_iff]
      have : (c.record (.jwtParse t)).keys = c.keys := rfl
      simp only [Context.AbortWithStatusJSON, this, hfresh, false_iff]
      constructor
      · intro h
        exact absurd h (by simp)
      · rintro ⟨t2, tk, h1, h2, h3, _⟩
        rw [hx] at h1
        injection h1 with h5 _
        subst h5
        exact absurd ⟨tk, h2, h3⟩ hno
  | claimsError t tok e hx hp hv hs =>
    have hno : ¬ ∃ (tk : Token) (sub : String),
        jwtParse lib t (keyFunc secret) = (some tk, none) ∧
        extractUserIDFromClaims tk.Claims = (sub, none) := by
      rintro ⟨tk, sub, h1, h2⟩
      rw [hp] at h1
      injection h1 with h3 _
      injection h3 with h3
      subst h3
      rw [hs] at h2
      exact absurd (congrArg Prod.snd h2) (by simp)
    constructor
    · rw [hget ((c.record (.jwtParse t)).AbortWithStatusJSON StatusUnauthorized
        [("error", e)]) hfresh]
      simp only [Bool.false_eq_true, false_iff]
      rintro ⟨t2, tk, sub, h1, h2, _, h4⟩
      rw [hx] at h1
      injection h1 with h5 _
      subst h5
      exact hno ⟨tk, sub, h2, h4⟩
    · intro s
      rw [GetUserID_eq_true_iff]
      have : (c.record (.jwtParse t)).keys = c.keys := rfl
      simp only [Context.AbortWithStatusJSON, this, hfresh]
      constructor
      · intro h
        exact absurd h (by simp)
      · rintro ⟨t2, tk, h1, h2, _, h4⟩
        rw [hx] at h1
        injection h1 with h5 _
        subst h5
        exact absurd ⟨tk, s, h2, h4⟩ hno
  | success t tok sub hx hp hv hs =>
    constructor
    · rw [hget2 _ _ (hbound _ sub _)]
      simp only [true_iff]
      exact ⟨t, tok, sub, hx, hp, hv, hs⟩
    · intro s
      rw [GetUserID_eq_true_iff, hbound]
      constructor
      · intro h
        have hs2 : sub = s := by
          injection h with h
          injection h
        subst hs2
        exact ⟨t, tok, hx, hp, hv, hs⟩
      · rintro ⟨t2, tk, h1, h2, _, h4⟩
        rw [hx] at h1
        injection h1 with h5 _
        subst h5
        rw [hp] at h2
        injection h2 with h6 _
        injection h6 with h6
        subst h6
        rw [hs] at h4
        injection h4 with h7 _
        rw [h7]

/-- Witness of C5 on a request carrying a signed token for `"user-42"`. -/
theorem binding_iff_all_stages_succeeded_witness :
    (requestWith "Bearer hs256.user42.s3cret/hs256/user42").keys.lookup userIDKey = none ∧
    (GetUserID (authHandler (sampleLib 2000) "s3cret" id
        (requestWith "Bearer hs256.user42.s3cret/hs256/user42")) = ("user-42", true) ↔
      ∃ (t : String) (tok : Token),
        extractBearerToken (requestWith "Bearer hs256.user42.s3cret/hs256/user42") =
          (t, true) ∧
        jwtParse (sampleLib 2000) t (keyFunc "s3cret") = (some tok, none) ∧
        tok.Valid = true ∧
        extractUserIDFromClaims tok.Claims = ("user-42", none)) :=
  ⟨rfl,
   (binding_iff_all_stages_succeeded (sampleLib 2000) "s3cret" id
      (requestWith "Bearer hs256.user42.s3cret/hs256/user42") rfl (fun _ => rfl)).2 "user-42"⟩

/-- Counterexample to C1 as stated: with the secret `"s3cret"` and the clock at
2000, the credential `hs256.user42exp.s3cret/hs256/user42exp` is an HMAC token
whose signature verifies under the configured secret and whose claim set holds
the non-empty string `sub` `"user-42"`, but its `exp` claim is 1000: the
validator rejects it, the handler aborts with 401, the rest of the chain is not
run and no identity is bound. -/
theorem signed_token_with_sub_rejected_when_expired :
    (requestWith "Bearer hs256.user42exp.s3cret/hs256/user42exp").GetHeader "Authorization" =
      "Bearer " ++ "hs256.user42exp.s3cret/hs256/user42exp" ∧
    ParseUnverified (sampleLib 2000) "hs256.user42exp.s3cret/hs256/user42exp" =
      .ok ({ Raw := "hs256.user42exp.s3cret/hs256/user42exp", Method := .HS256,
             Header := [("alg", .str "HS256"), ("typ", .str "JWT")],
             Claims := .mapClaims [("sub", .str "user-42"), ("exp", .num 1000)],
             Signature := "", Valid := false },
           "hs256", "user42exp", "s3cret/hs256/user42exp") ∧
    SigningMethod.HS256.isHMAC = true ∧
    (sampleLib 2000).verify .HS256 ("hs256" ++ "." ++ "user42exp")
      "s3cret/hs256/user42exp" "s3cret" = true ∧
    [("sub", GoAny.str "user-42"), ("exp", GoAny.num 1000)].lookup "sub" =
      some (.str "user-42") ∧
    "user-42" ≠ "" ∧
    authHandler (sampleLib 2000) "s3cret" (fun d => d.record .next)
        (requestWith "Bearer hs256.user42exp.s3cret/hs256/user42exp") =
      ((requestWith "Bearer hs256.user42exp.s3cret/hs256/user42exp").record
        (.jwtParse "hs256.user42exp.s3cret/hs256/user42exp")).AbortWithStatusJSON
        StatusUnauthorized [("error", "Invalid token")] ∧
    (authHandler (sampleLib 2000) "s3cret" (fun d => d.record .next)
        (requestWith "Bearer hs256.user42exp.s3cret/hs256/user42exp")).status = some 401 ∧
    GetUserID (authHandler (sampleLib 2000) "s3cret" (fun d => d.record .next)
        (requestWith "Bearer hs256.user42exp.s3cret/hs256/user42exp")) = ("", false) := by
  refine ⟨by decide, by rfl, by decide, by decide, by decide, by decide, by decide,
    by decide, by decide⟩

/-- Claim C1, amended: for every credential that is an HMAC token correctly
signed with the configured secret, whose claim set contains a non-empty string
`sub` claim `s` and passes the validation of its time claims (it is not
expired), the handler does not reject the request: it binds `s` under
`"userID"` and runs the rest of the chain, and `GetUserID` on the context it
hands over returns `(s, true)`. -/
theorem authHandler_accepts_signed_unexpired_token (lib : JwtLib) (secret : String)
    (next : Context → Context) (c : Context) (t : String) (tok : Token)
    (p0 p1 p2 : String) (m : List (String × GoAny)) (s : String)
    (hh : c.GetHeader "Authorization" = "Bearer " ++ t)
    (hp : ParseUnverified lib t = .ok (tok, p0, p1, p2))
    (hm : tok.Method.isHMAC = true)
    (hsig : lib.verify tok.Method (p0 ++ "." ++ p1) p2 secret = true)
    (hcl : tok.Claims = .mapClaims m)
    (hsub : m.lookup "sub" = some (.str s))
    (hne : s ≠ "")
    (htime : lib.claimsValid m = true) :
    jwtParse lib t (keyFunc secret) =
      (some { tok with Signature := p2, Valid := true }, none) ∧
    authHandler lib secret next c =
      next (((c.record (.jwtParse t)).Set userIDKey (.str s)).record .next) ∧
    GetUserID (((c.record (.jwtParse t)).Set userIDKey (.str s)).record .next) = (s, true) ∧
    (((c.record (.jwtParse t)).Set userIDKey (.str s)).record .next).aborted = c.aborted ∧
    (((c.record (.jwtParse t)).Set userIDKey (.str s)).record .next).status = c.status := by
  have hx : extractBearerToken c = (t, true) := (extractBearerToken_eq_iff c t).2 hh
  have hc : claimsValid lib tok.Claims = true := by
    rw [hcl]
    exact htime
  have hj := jwtParse_hmac_ok lib secret t tok p0 p1 p2 hp hm hc hsig
  have hs : extractUserIDFromClaims
      ({ tok with Signature := p2, Valid := true } : Token).Claims = (s, none) := by
    show extractUserIDFromClaims tok.Claims = (s, none)
    rw [hcl]
    exact extractUserIDFromClaims_sub m s hsub hne
  exact ⟨hj, authHandler_success lib secret next c t _ s hx hj rfl hs,
    GetUserID_Set_record _ _ _, rfl, rfl⟩

/-- Witness of C1 (amended): the secret `"s3cret"`, a credential signed with it
whose claims are `sub = "user-42"`. -/
theorem authHandler_accepts_signed_unexpired_token_witness :
    authHandler (sampleLib 2000) "s3cret" id
        (requestWith "Bearer hs256.user42.s3cret/hs256/user42") =
      ((((requestWith "Bearer hs256.user42.s3cret/hs256/user42").record
        (.jwtParse "hs256.user42.s3cret/hs256/user42")).Set userIDKey
          (.str "user-42")).record .next) ∧
    GetUserID ((((requestWith "Bearer hs256.user42.s3cret/hs256/user42").record
        (.jwtParse "hs256.user42.s3cret/hs256/user42")).Set userIDKey
          (.str "user-42")).record .next) = ("user-42", true) :=
  have h := authHandler_accepts_signed_unexpired_token (sampleLib 2000) "s3cret" id
    (requestWith "Bearer hs256.user42.s3cret/hs256/user42")
    "hs256.user42.s3cret/hs256/user42"
    { Raw := "hs256.user42.s3cret/hs256/user42", Method := .HS256,
      Header := [("alg", .str "HS256"), ("typ", .str "JWT")],
      Claims := .mapClaims [("sub", .str "user-42")], Signature := "", Valid := false }
    "hs256" "user42" "s3cret/hs256/user42" [("sub", .str "user-42")] "user-42"
    (by decide) (by rfl) (by decide) (by decide) rfl (by decide) (by decide) (by decide)
  ⟨h.2.1, h.2.2.1⟩

/-- Claim C3: for a credential whose header declares an algorithm other than
the HMAC ones (an asymmetric algorithm, `"none"`, or an unknown name), the key
function returns an error and no key whenever it is asked, `jwt.Parse` fails,
and the handler rejects the request with 401 and binds nothing, whatever the
signature segment and whatever the signature verification would answer. -/
theorem non_hmac_algorithm_rejected (lib : JwtLib) (secret : String)
    (next : Context → Context) (c : Context) (t p0 p1 p2 : String)
    (header : List (String × GoAny)) (alg : String)
    (hx : c.GetHeader "Authorization" = "Bearer " ++ t)
    (hsplit : (splitDots t.toList).map String.mk = [p0, p1, p2])
    (hh : lib.decodeHeader p0 = some header)
    (halg : header.lookup "alg" = some (.str alg))
    (hn : alg ≠ "HS256" ∧ alg ≠ "HS384" ∧ alg ≠ "HS512") :
    (∀ (tok : Token) (q0 q1 q2 : String), ParseUnverified lib t = .ok (tok, q0, q1, q2) →
      tok.Method.isHMAC = false ∧
      keyFunc secret tok =
        (none, some ("unexpected signing method: " ++
          ((tok.Header.lookup "alg").getD .nil).format)) ∧
      jwtParse lib t (keyFunc secret) = (some tok, some { unverifiable := true })) ∧
    (∃ e : ValidationError, (jwtParse lib t (keyFunc secret)).2 = some e) ∧
    authHandler lib secret next c =
      (c.record (.jwtParse t)).AbortWithStatusJSON StatusUnauthorized
        [("error", "Invalid token")] ∧
    (authHandler lib secret next c).aborted = true ∧
    (authHandler lib secret next c).status = some 401 ∧
    (authHandler lib secret next c).keys = c.keys := by
  have hmeth : ∀ (tok : Token) (q0 q1 q2 : String),
      ParseUnverified lib t = .ok (tok, q0, q1, q2) → tok.Method.isHMAC = false := by
    intro tok q0 q1 q2 hp
    have hg := ParseUnverified_ok_method lib t tok q0 q1 q2 p0 p1 p2 header alg hsplit hh halg hp
    cases hb : tok.Method.isHMAC with
    | false => rfl
    | true =>
      rcases GetSigningMethod_isHMAC alg tok.Method hg hb with h | h | h
      · exact absurd h hn.1
      · exact absurd h hn.2.1
      · exact absurd h hn.2.2
  have herr : ∃ (tk : Option Token) (e : ValidationError),
      jwtParse lib t (keyFunc secret) = (tk, some e) := by
    cases hp : ParseUnverified lib t with
    | error e => exact ⟨none, e, jwtParse_parse_error lib t _ e hp⟩
    | ok r =>
      obtain ⟨tok, q0, q1, q2⟩ := r
      exact ⟨some tok, _, jwtParse_not_hmac lib secret t tok q0 q1 q2 hp (hmeth tok q0 q1 q2 hp)⟩
  obtain ⟨tk, e, hj⟩ := herr
  have hxx : extractBearerToken c = (t, true) := (extractBearerToken_eq_iff c t).2 hx
  have hr := authHandler_invalid_token lib secret next c t tk (some e) hxx hj rfl
  refine ⟨?_, ⟨e, by rw [hj]⟩, hr, ?_, ?_, ?_⟩
  · intro tok q0 q1 q2 hp
    have hm := hmeth tok q0 q1 q2 hp
    exact ⟨hm, keyFunc_not_hmac secret tok hm, jwtParse_not_hmac lib secret t tok q0 q1 q2 hp hm⟩
  · rw [hr]; rfl
  · rw [hr]; rfl
  · rw [hr]; rfl

/-- Witness of C3: a credential declaring `"none"` with an empty signature, under
a library whose signature verification accepts everything. -/
theorem non_hmac_algorithm_rejected_witness :
    (authHandler { sampleLib 2000 with verify := fun _ _ _ _ => true } "s3cret" id
      (requestWith "Bearer none.user42.")).status = some 401 ∧
    (authHandler { sampleLib 2000 with verify := fun _ _ _ _ => true } "s3cret" id
      (requestWith "Bearer none.user42.")).keys = [] :=
  have h := non_hmac_algorithm_rejected { sampleLib 2000 with verify := fun _ _ _ _ => true }
    "s3cret" id (requestWith "Bearer none.user42.") "none.user42." "none" "user42" ""
    [("alg", .str "none")] "none" (by decide) (by decide) (by rfl) (by decide)
    ⟨by decide, by decide, by decide⟩
  ⟨h.2.2.2.2.1, h.2.2.2.2.2⟩

set_option maxRecDepth 100000 in
/-- Counterexample to C9 as stated: the configured secret is `"s3cret"` and the
credential `hs256.user42.89cb` is signed with the different secret
`"s3cret"` followed by a zero byte. HMAC pads a short key with zero bytes, so
both secrets give the same signature (for every hash function, see
`hmacSign_zero_padded`): validation succeeds, the handler does not reject the
request and binds the identity `"user-42"`. -/
theorem token_signed_with_padded_secret_accepted :
    "s3cret" ++ String.mk [Char.ofNat 0] ≠ "s3cret" ∧
    hmacSign fletcher16 .HS256 "hs256.user42" ("s3cret" ++ String.mk [Char.ofNat 0]) = "89cb" ∧
    (hmacLib fletcher16 2000).verify .HS256 "hs256.user42" "89cb"
      ("s3cret" ++ String.mk [Char.ofNat 0]) = true ∧
    jwtParse (hmacLib fletcher16 2000) "hs256.user42.89cb" (keyFunc "s3cret") =
      (some { Raw := "hs256.user42.89cb", Method := .HS256,
              Header := [("alg", .str "HS256"), ("typ", .str "JWT")],
              Claims := .mapClaims [("sub", .str "user-42")],
              Signature := "89cb", Valid := true }, none) ∧
    (authHandler (hmacLib fletcher16 2000) "s3cret" id
      (requestWith "Bearer hs256.user42.89cb")).aborted = false ∧
    (authHandler (hmacLib fletcher16 2000) "s3cret" id
      (requestWith "Bearer hs256.user42.89cb")).status = none ∧
    GetUserID (authHandler (hmacLib fletcher16 2000) "s3cret" id
      (requestWith "Bearer hs256.user42.89cb")) = ("user-42", true) := by
  refine ⟨by decide, by decide, by decide, by decide, by decide, by decide, by decide⟩

/-- Claim C9, amended: for an HMAC credential whose signature does not verify
under the configured secret (as when it was signed with another secret that
does not give the same HMAC), `jwt.Parse` in the handler fails with an error flagged `ValidationErrorSignatureInvalid` and not
`ValidationErrorMalformed`, whereas a credential that does not have three
segments fails with an error flagged malformed and not signature-invalid; the
handler rejects the request with 401 and binds no identity. -/
theorem wrong_secret_signature_rejected (lib : JwtLib) (secret : String)
    (next : Context → Context) (c : Context) (t : String) (tok : Token)
    (p0 p1 p2 : String)
    (hx : c.GetHeader "Authorization" = "Bearer " ++ t)
    (hp : ParseUnverified lib t = .ok (tok, p0, p1, p2))
    (hm : tok.Method.isHMAC = true)
    (hsig : lib.verify tok.Method (p0 ++ "." ++ p1) p2 secret = false) :
    (∃ e : ValidationError,
      jwtParse lib t (keyFunc secret) = (some { tok with Signature := p2 }, some e) ∧
      e.signatureInvalid = true ∧ e.malformed = false) ∧
    (∀ t2 : String, (splitDots t2.toList).length ≠ 3 →
      ∃ e2 : ValidationError, jwtParse lib t2 (keyFunc secret) = (none, some e2) ∧
        e2.malformed = true ∧ e2.signatureInvalid = false) ∧
    authHandler lib secret next c =
      (c.record (.jwtParse t)).AbortWithStatusJSON StatusUnauthorized
        [("error", "Invalid token")] ∧
    (authHandler lib secret next c).aborted = true ∧
    (authHandler lib secret next c).status = some 401 ∧
    (authHandler lib secret next c).keys = c.keys := by
  have hj := jwtParse_hmac_bad_signature lib secret t tok p0 p1 p2 hp hm hsig
  have hxx : extractBearerToken c = (t, true) := (extractBearerToken_eq_iff c t).2 hx
  have hr := authHandler_invalid_token lib secret next c t _ _ hxx hj rfl
  refine ⟨⟨_, hj, rfl, rfl⟩, ?_, hr, ?_, ?_, ?_⟩
  · intro t2 h2
    exact ⟨{ malformed := true },
      jwtParse_parse_error lib t2 _ _ (ParseUnverified_malformed lib t2 h2), rfl, rfl⟩
  · rw [hr]; rfl
  · rw [hr]; rfl
  · rw [hr]; rfl

/-- Witness of C9: the secret `"s3cret"` and a credential signed with `"wrong"`. -/
theorem wrong_secret_signature_rejected_witness :
    (sampleLib 2000).verify .HS256 ("hs256" ++ "." ++ "user42") "wrong/hs256/user42"
      "wrong" = true ∧
    (authHandler (sampleLib 2000) "s3cret" id
      (requestWith "Bearer hs256.user42.wrong/hs256/user42")).status = some 401 ∧
    (authHandler (sampleLib 2000) "s3cret" id
      (requestWith "Bearer hs256.user42.wrong/hs256/user42")).keys = [] :=
  have h := wrong_secret_signature_rejected (sampleLib 2000) "s3cret" id
    (requestWith "Bearer hs256.user42.wrong/hs256/user42") "hs256.user42.wrong/hs256/user42"
    { Raw := "hs256.user42.wrong/hs256/user42", Method := .HS256,
      Header := [("alg", .str "HS256"), ("typ", .str "JWT")],
      Claims := .mapClaims [("sub", .str "user-42")], Signature := "", Valid := false }
    "hs256" "user42" "wrong/hs256/user42" (by decide) (by rfl) (by decide) (by decide)
  ⟨by decide, h.2.2.2.2.1, h.2.2.2.2.2⟩

end Middleware
